import Mathlib

set_option linter.unreachableTactic false
set_option linter.unusedTactic false
set_option linter.unnecessarySeqFocus false
set_option linter.unusedVariables false

/-!
Shallow embedding of the async_connector repository (files
`src/AsyncConnector.py` and `src/async_connector.py`) in Lean 4.

The repository contains two variants of one component:

* `AsyncConnector` (file `AsyncConnector.py`): constructor opens/creates the
  log file, recovers the next call id from the last log line, and `get` runs
  a `for _ in range(self.n_tries)` loop whose body is a
  `try/except/except/except/finally` block.  Crucially, the `finally` block
  runs on every exit of the `try` block, including the `continue` of the
  5xx branch and the `return r` of the success path, and the `finally`
  block itself appends a row and sleeps.
* `Connector` (file `async_connector.py`): same constructor shape (header
  first column `id` instead of `call_id`), `get` always decodes the body as
  JSON, and both backoff calls refer to the bare name `rate_limit`, which is
  only a class attribute and hence unresolvable from inside the method: the
  call raises `NameError` at runtime.

Time is modelled as a natural-number clock: `time.time()` reads the clock,
the HTTP call advances it by the duration carried in the network event, and
`rate_limit(d)` (i.e. `asyncio.sleep(d)`) advances it by exactly `d`.
Python floats are modelled as naturals; `str` of numbers is modelled by a
decimal renderer with the same digit semantics.  Exceptions raised by the
transport or by body decoding are part of the per-attempt network event;
`traceback.format_exc()` is modelled as the diagnostic string carried by
the event (a fixed constant for the `TypeError` arising from
`'json' in None` and for the `NameError` on `rate_limit`).
-/

/-- Decoded payload returned by `get`: either structured data obtained from
`response.json()` (represented by its `json.dumps` serialization) or plain
text from `response.text()`. -/
inductive Payload where
  | jsonData (dump : String)
  | textData (text : String)
  deriving DecidableEq, Repr

/-- Result of one awaited body-decoding call (`response.json()` or
`response.text()`): the decoded value, or the diagnostic of the exception
it raised. -/
inductive PyRes where
  | ok (val : String)
  | exn (diag : String)
  deriving DecidableEq, Repr

/-- One row of the audit log, before serialization: the ten fields of the
`row` list of both `get` methods, in source order.  `response_code = none`
models the Python empty string `''` assigned in the failure paths; times
are naturals (model of the float timestamps). -/
structure Row where
  call_id : Int
  project : String
  t : Nat
  delta_t : Nat
  url : String
  redirect_url : String
  response_size : Nat
  response_code : Option Int
  success : Bool
  error : String
  deriving DecidableEq, Repr

/-- What the network does on one attempt: either a response arrives
(carrying HTTP status, final URL after redirects, the declared
`Content-Type` header, and the outcomes of decoding the body as JSON and
as text), or `session.get` raises one of the classified exceptions.
`dur` is the wall-clock duration of the HTTP call. -/
inductive NetEvent where
  | response (dur : Nat) (status : Int) (finalUrl : String)
      (contentType : Option String) (jsonBody : PyRes) (textBody : PyRes)
  | connErr (dur : Nat)
  | timeoutErr (dur : Nat)
  | otherErr (dur : Nat) (diag : String)
  deriving DecidableEq, Repr

/-- Mutable per-connector state threaded through a `get` call: the call-id
counter (`self.call_id` resp. `self.id`), the rows appended to the log so
far, the wall clock, and the ghost list of attempt start times (the values
`t_start = time.time()` reads, recorded for the temporal claims). -/
structure ConnState where
  call_id : Int
  rows : List Row
  clock : Nat
  starts : List Nat
  deriving DecidableEq, Repr

/-- Checks whether `needle` is a prefix of `hay` (over character lists). -/
def isPrefOf : List Char → List Char → Bool
  | [], _ => true
  | _ :: _, [] => false
  | a :: as, b :: bs => a = b && isPrefOf as bs

/-- Checks whether `needle` occurs as a contiguous substring of `hay`,
the semantics of the Python expression `needle in hay` on strings. -/
def containsSub (needle : List Char) : List Char → Bool
  | [] => isPrefOf needle []
  | c :: t => isPrefOf needle (c :: t) || containsSub needle t

/-- Python `needle in hay` on strings. -/
def strContains (hay needle : String) : Bool :=
  containsSub needle.data hay.data

/-- Fuel-driven decimal rendering of a natural number, most significant
digit first.  The fuel argument makes the recursion structural; it is
always called with enough fuel. -/
def natDecimalAux : Nat → Nat → List Char
  | 0, _ => []
  | fuel + 1, n =>
    if n < 10 then [Nat.digitChar n]
    else natDecimalAux fuel (n / 10) ++ [Nat.digitChar (n % 10)]

/-- Decimal digits of a natural number, the semantics of Python `str(n)`
for a nonnegative integer. -/
def natDecimal (n : Nat) : List Char := natDecimalAux (n + 1) n

/-- Python `str` on a natural number of the model. -/
def pyStrNat (n : Nat) : String := String.mk (natDecimal n)

/-- Python `str` on an integer. -/
def pyStrInt : Int → String
  | Int.ofNat n => pyStrNat n
  | Int.negSucc n => String.mk ('-' :: natDecimal (n + 1))

/-- Strips leading and trailing whitespace characters, the whitespace
handling of Python `int(str)`. -/
def trimCh (l : List Char) : List Char :=
  ((l.dropWhile Char.isWhitespace).reverse.dropWhile Char.isWhitespace).reverse

/-- Value of a nonempty all-digit character list, read in base 10;
`none` otherwise. -/
def digitsVal (l : List Char) : Option Nat :=
  if l.isEmpty then none
  else if l.all Char.isDigit then
    some (l.foldl (fun a c => a * 10 + (c.toNat - 48)) 0)
  else none

/-- Python `int(s)`: strip whitespace, allow one optional sign, then
require a nonempty run of decimal digits; any other shape raises
`ValueError`, modelled as `none`. -/
def pyParseInt (s : String) : Option Int :=
  match trimCh s.data with
  | [] => none
  | c :: rest =>
    if c = '+' then (digitsVal rest).map (fun n => (n : Int))
    else if c = '-' then (digitsVal rest).map (fun n => -(n : Int))
    else (digitsVal (c :: rest)).map (fun n => (n : Int))

/-- Splits a character list at every occurrence of `sep`, keeping empty
chunks, the semantics of Python `s.split(sep)`. -/
def splitCh (sep : Char) : List Char → List (List Char)
  | [] => [[]]
  | c :: cs =>
    if c = sep then [] :: splitCh sep cs
    else
      match splitCh sep cs with
      | [] => [[c]]
      | h :: t => (c :: h) :: t

/-- Python `f.readlines()` on a file holding `s`, with the line
terminators dropped (the code only measures the number of lines and
parses an integer out of the last one, and `int` strips whitespace, so
dropping the terminators is behaviour-equivalent): the empty file has no
lines, and a trailing newline does not open a final empty line. -/
def pyLines (s : String) : List String :=
  if s.data = [] then []
  else if s.data.getLast? = some '\n' then
    ((splitCh '\n' s.data).dropLast).map (fun l => String.mk l)
  else (splitCh '\n' s.data).map (fun l => String.mk l)

/-- First field of a `;`-separated line: `line.split(';')[0]`. -/
def firstField (line : String) : String :=
  String.mk ((splitCh ';' line.data).headD [])

/-- Diagnostic recorded when `'json' in content_type` is evaluated with
`content_type = None`: `traceback.format_exc()` of the resulting
`TypeError` (model constant). -/
def tracebackTypeErrorNone : String :=
  "Traceback: TypeError: argument of type NoneType is not iterable"

/-- Diagnostic of the `NameError` raised by the bare references to
`rate_limit` inside `Connector.get` of `async_connector.py`: the name is
a class attribute and is not visible from the method body. -/
def nameErrorRateLimit : String :=
  "NameError: name rate_limit is not defined"

/-- Model of `traceback.format_exc()` for a connection error caught by the
catch-all `except Exception` of `Connector.get`. -/
def tracebackConnError : String :=
  "Traceback: aiohttp.ClientConnectionError"

/-- Model of `traceback.format_exc()` for a timeout caught by the
catch-all `except Exception` of `Connector.get`. -/
def tracebackTimeoutError : String :=
  "Traceback: asyncio.TimeoutError"

/-- Body decoding of `AsyncConnector.get` (lines 121 to 128 of
`AsyncConnector.py`): read the `Content-Type` header; if it is absent,
`'json' in None` raises `TypeError`; if it mentions `json`, decode as JSON
and measure `len(json.dumps(r))`; otherwise decode as text and measure
`len(r)`. -/
inductive PyDecode where
  | ok (payload : Payload) (size : Nat)
  | exn (diag : String)
  deriving DecidableEq, Repr

/-- Evaluates the decode step of `AsyncConnector.get` on the declared
content type and the two possible body decodings of the event. -/
def decodePy : Option String → PyRes → PyRes → PyDecode
  | none, _, _ => PyDecode.exn tracebackTypeErrorNone
  | some c, j, t =>
    if strContains c "json" then
      match j with
      | PyRes.ok d => PyDecode.ok (Payload.jsonData d) d.length
      | PyRes.exn diag => PyDecode.exn diag
    else
      match t with
      | PyRes.ok s => PyDecode.ok (Payload.textData s) s.length
      | PyRes.exn diag => PyDecode.exn diag

/-- The `finally` block of `AsyncConnector.get` (lines 164 to 187): take a
fresh `t_end`, blank the redirect, zero the size, blank the response code,
obtain a fresh call id, append the row built from the current `success`
and `error` bindings, flush, and sleep `self.timeout` seconds.  It runs on
every exit of the `try` block: exception, `continue` and `return` alike. -/
def finallyAC (timo : Nat) (project url : String) (t_start : Nat)
    (success : Bool) (error : String) (s : ConnState) : ConnState :=
  let row : Row :=
    { call_id := s.call_id, project := project, t := t_start,
      delta_t := s.clock - t_start, url := url, redirect_url := "",
      response_size := 0, response_code := none, success := success,
      error := error }
  { call_id := s.call_id + 1,
    rows := s.rows ++ [row],
    clock := s.clock + timo,
    starts := s.starts }

/-- One iteration of the attempt loop of `AsyncConnector.get` (lines 106
to 187 of `AsyncConnector.py`).  Returns the state after the iteration
and `some payload` when the iteration executed `return r`, `none` when it
fell through to the next iteration.  Paths:

* transport exception from `session.get`: the matching `except` arm sets
  `error` and `success = False`, then the `finally` block logs and sleeps;
* response received: `t_end` is read, `success = True`, `error = ''`, a
  call id is consumed (lines 117 to 119), then the decode step runs; if it
  raises, the catch-all `except` stores the traceback and the `finally`
  block logs a failure row; if `response_code >= 500` the code sleeps and
  executes `continue`, which still triggers the `finally` block (second
  row id, second sleep); otherwise the real row is written (line 147) and
  `return r` triggers the `finally` block, which appends one more spurious
  row and sleeps before the value is returned. -/
def attemptAC (timo : Nat) (project url : String) (s : ConnState)
    (ev : NetEvent) : ConnState × Option Payload :=
  let t_start := s.clock
  let s0 : ConnState := { s with starts := s.starts ++ [t_start] }
  match ev with
  | NetEvent.connErr d =>
    (finallyAC timo project url t_start false "Connection error"
      { s0 with clock := s0.clock + d }, none)
  | NetEvent.timeoutErr d =>
    (finallyAC timo project url t_start false "Timeout error"
      { s0 with clock := s0.clock + d }, none)
  | NetEvent.otherErr d diag =>
    (finallyAC timo project url t_start false diag
      { s0 with clock := s0.clock + d }, none)
  | NetEvent.response d st u ct j t =>
    let s1 : ConnState := { s0 with clock := s0.clock + d }
    let t_end := s1.clock
    let cid := s1.call_id
    let s2 : ConnState := { s1 with call_id := cid + 1 }
    match decodePy ct j t with
    | PyDecode.exn diag =>
      (finallyAC timo project url t_start false diag s2, none)
    | PyDecode.ok r size =>
      if 500 ≤ st then
        (finallyAC timo project url t_start true ""
          { s2 with clock := s2.clock + timo }, none)
      else
        let row : Row :=
          { call_id := cid, project := project, t := t_start,
            delta_t := t_end - t_start, url := url, redirect_url := u,
            response_size := size, response_code := some st,
            success := true, error := "" }
        (finallyAC timo project url t_start true ""
          { s2 with rows := s2.rows ++ [row] }, some r)

/-- The attempt loop of `AsyncConnector.get` over an explicit list of
network events, one per iteration.  An empty list means the loop bound is
exhausted; the Python function then falls off the loop and returns
`None`. -/
def getACAux (timo : Nat) (project url : String) :
    List NetEvent → ConnState → ConnState × Option Payload
  | [], s => (s, none)
  | ev :: rest, s =>
    match attemptAC timo project url s ev with
    | (s2, some r) => (s2, some r)
    | (s2, none) => getACAux timo project url rest s2

/-- `AsyncConnector.get`: run up to `n_tries` attempts against the network
oracle `events` (attempt `i` observes `events i`). -/
def getAC (n_tries timo : Nat) (project url : String)
    (events : Nat → NetEvent) (s : ConnState) : ConnState × Option Payload :=
  getACAux timo project url ((List.range n_tries).map events) s

/-- Terminal outcome of one `Connector.get` call (file
`async_connector.py`): the normal return value is the triple
`(r, response_code, call_id)` of line 138; falling off the loop returns
`None`; `raised` records an exception escaping to the caller. -/
inductive COutcome where
  | retTriple (payload : Payload) (code : Int) (cid : Int)
  | noResult
  | raised (msg : String)
  deriving DecidableEq, Repr

/-- The `except Exception` block of `Connector.get` (lines 140 to 163):
set the failure fields, obtain a fresh call id, append and flush the
failure row.  The block then executes `await rate_limit(...)` on line 165,
which raises `NameError` (bare class-attribute name), so no sleep happens
and the clock does not advance. -/
def exceptRowC (project url : String) (t_start : Nat) (diag : String)
    (s : ConnState) : ConnState :=
  let row : Row :=
    { call_id := s.call_id, project := project, t := t_start,
      delta_t := s.clock - t_start, url := url, redirect_url := "",
      response_size := 0, response_code := none, success := false,
      error := diag }
  { call_id := s.call_id + 1,
    rows := s.rows ++ [row],
    clock := s.clock,
    starts := s.starts }

/-- One iteration of the attempt loop of `Connector.get` (lines 104 to 165
of `async_connector.py`).  Unlike `AsyncConnector.get`, the body is always
decoded as JSON (line 109, before the fields are set) and there is no
`finally` block.  Every path through the body is terminal:

* status below 500 with a successful JSON decode writes one success row
  and returns the triple `(r, response_code, call_id)`;
* any exception (transport error, JSON decode failure) lands in the
  `except Exception` block, which appends one failure row and then raises
  `NameError` from the bare `rate_limit` reference on line 165;
* a 5xx status reaches `await rate_limit(self.timeout * n ** 2)` on line
  132, which raises `NameError` inside the `try`, is caught by the same
  `except Exception` block (one failure row with the `NameError`
  traceback), and the block again raises `NameError` on line 165.  The
  `continue` of line 133 is therefore unreachable. -/
def attemptC (project url : String) (s : ConnState) (ev : NetEvent) :
    ConnState × Option COutcome :=
  let t_start := s.clock
  let s0 : ConnState := { s with starts := s.starts ++ [t_start] }
  match ev with
  | NetEvent.connErr d =>
    (exceptRowC project url t_start tracebackConnError
      { s0 with clock := s0.clock + d },
     some (COutcome.raised nameErrorRateLimit))
  | NetEvent.timeoutErr d =>
    (exceptRowC project url t_start tracebackTimeoutError
      { s0 with clock := s0.clock + d },
     some (COutcome.raised nameErrorRateLimit))
  | NetEvent.otherErr d diag =>
    (exceptRowC project url t_start diag { s0 with clock := s0.clock + d },
     some (COutcome.raised nameErrorRateLimit))
  | NetEvent.response d st u _ j _ =>
    let s1 : ConnState := { s0 with clock := s0.clock + d }
    let t_end := s1.clock
    match j with
    | PyRes.exn diag =>
      (exceptRowC project url t_start diag s1,
       some (COutcome.raised nameErrorRateLimit))
    | PyRes.ok dump =>
      let cid := s1.call_id
      let s2 : ConnState := { s1 with call_id := cid + 1 }
      if 500 ≤ st then
        (exceptRowC project url t_start nameErrorRateLimit s2,
         some (COutcome.raised nameErrorRateLimit))
      else
        let row : Row :=
          { call_id := cid, project := project, t := t_start,
            delta_t := t_end - t_start, url := url, redirect_url := u,
            response_size := dump.length, response_code := some st,
            success := true, error := "" }
        ({ s2 with rows := s2.rows ++ [row] },
         some (COutcome.retTriple (Payload.jsonData dump) st cid))

/-- The attempt loop of `Connector.get` over an explicit list of network
events.  The `none` branch of the match keeps the loop structure of the
source even though every path of `attemptC` is terminal. -/
def getCAux (project url : String) :
    List NetEvent → ConnState → ConnState × COutcome
  | [], s => (s, COutcome.noResult)
  | ev :: rest, s =>
    match attemptC project url s ev with
    | (s2, some out) => (s2, out)
    | (s2, none) => getCAux project url rest s2

/-- `Connector.get`: run up to `n_tries` attempts against the network
oracle `events`. -/
def getC (n_tries : Nat) (project url : String) (events : Nat → NetEvent)
    (s : ConnState) : ConnState × COutcome :=
  getCAux project url ((List.range n_tries).map events) s

/-- Header line written by `AsyncConnector.__init__`
(`';'.join(header)`, lines 36 to 47 of `AsyncConnector.py`). -/
def headerAC : String :=
  "call_id;project;t;delta_t;url;redirect_url;response_size;response_code;success;error"

/-- Header line written by `Connector.__init__` (lines 35 to 46 of
`async_connector.py`): the first column is named `id`, not `call_id`. -/
def headerC : String :=
  "id;project;t;delta_t;url;redirect_url;response_size;response_code;success;error"

/-- Python `str` of the response-code field: the empty string for the
empty-string code of the failure paths, decimal rendering otherwise. -/
def renderCode : Option Int → String
  | none => ""
  | some c => pyStrInt c

/-- Python `str` on the success flag: `True` or `False`. -/
def renderBool (b : Bool) : String := if b then "True" else "False"

/-- Serialization of one row: `';'.join(map(str, row))` with the ten
fields in source order. -/
def renderRow (r : Row) : String :=
  pyStrInt r.call_id ++ ";" ++ r.project ++ ";" ++ pyStrNat r.t ++ ";" ++
    pyStrNat r.delta_t ++ ";" ++ r.url ++ ";" ++ r.redirect_url ++ ";" ++
    pyStrNat r.response_size ++ ";" ++ renderCode r.response_code ++ ";" ++
    renderBool r.success ++ ";" ++ r.error

/-- Concatenation of the writes performed for a list of rows: each append
is `self.log.write('\n' + ';'.join(map(str, row)))`, i.e. the row text
prefixed by a newline. -/
def rowsBlock : List Row → String
  | [] => ""
  | r :: rest => "\n" ++ renderRow r ++ rowsBlock rest

/-- Content of a log file freshly created by `AsyncConnector.__init__`
(header plus trailing newline) after the given rows have been appended. -/
def logContentsAC (rows : List Row) : String :=
  headerAC ++ "\n" ++ rowsBlock rows

/-- Content of a log file freshly created by `Connector.__init__` after
the given rows have been appended. -/
def logContentsC (rows : List Row) : String :=
  headerC ++ "\n" ++ rowsBlock rows

/-- Call-id recovery of both constructors (lines 63 to 75 of
`AsyncConnector.py`, lines 62 to 74 of `async_connector.py`): read all
lines of the file; with at most one line the counter starts at 0;
otherwise parse the first `;`-field of the last line as an integer and
start at that value plus one; if `int` raises `ValueError`, start at 0. -/
def startCallId (content : String) : Int :=
  let lines := pyLines content
  if lines.length ≤ 1 then 0
  else
    match pyParseInt (firstField (lines.getLastD "")) with
    | some n => n + 1
    | none => 0

/-- File content produced by the open/create step of
`AsyncConnector.__init__` (lines 49 to 61): a missing file is created
with the header line; an existing file is truncated to the header line
when `overwrite_log` is true and left untouched otherwise. -/
def initContent (fileExists overwrite : Bool) (old : String) : String :=
  if fileExists then (if overwrite then headerAC ++ "\n" else old)
  else headerAC ++ "\n"

/-- Starting call id determined by `AsyncConnector.__init__` for a file
that held `old` (empty string when the file was missing). -/
def initCallId (fileExists overwrite : Bool) (old : String) : Int :=
  startCallId (initContent fileExists overwrite old)

/-- Unfolds one `AsyncConnector.get` iteration on a connection error. -/
theorem attemptAC_connErr (timo : Nat) (p u : String) (s : ConnState)
    (d : Nat) :
    attemptAC timo p u s (NetEvent.connErr d) =
      ({ call_id := s.call_id + 1,
         rows := s.rows ++
           [{ call_id := s.call_id, project := p,
              t := s.clock, delta_t := d, url := u, redirect_url := "",
              response_size := 0, response_code := none, success := false,
              error := "Connection error" }],
         clock := s.clock + d + timo,
         starts := s.starts ++ [s.clock] }, none) := by
  simp [attemptAC, finallyAC]

/-- Unfolds one `AsyncConnector.get` iteration on a timeout. -/
theorem attemptAC_timeoutErr (timo : Nat) (p u : String) (s : ConnState)
    (d : Nat) :
    attemptAC timo p u s (NetEvent.timeoutErr d) =
      ({ call_id := s.call_id + 1,
         rows := s.rows ++
           [{ call_id := s.call_id, project := p,
              t := s.clock, delta_t := d, url := u, redirect_url := "",
              response_size := 0, response_code := none, success := false,
              error := "Timeout error" }],
         clock := s.clock + d + timo,
         starts := s.starts ++ [s.clock] }, none) := by
  simp [attemptAC, finallyAC]

/-- Unfolds one `AsyncConnector.get` iteration on an unclassified
transport exception. -/
theorem attemptAC_otherErr (timo : Nat) (p u : String) (s : ConnState)
    (d : Nat) (diag : String) :
    attemptAC timo p u s (NetEvent.otherErr d diag) =
      ({ call_id := s.call_id + 1,
         rows := s.rows ++
           [{ call_id := s.call_id, project := p,
              t := s.clock, delta_t := d, url := u, redirect_url := "",
              response_size := 0, response_code := none, success := false,
              error := diag }],
         clock := s.clock + d + timo,
         starts := s.starts ++ [s.clock] }, none) := by
  simp [attemptAC, finallyAC]

/-- Unfolds one `AsyncConnector.get` iteration on a response whose decode
step raises (absent content type, or a failing `json()`/`text()` call):
the call id of line 119 is consumed first, so the logged failure row
carries `s.call_id + 1` and the counter ends two above its start. -/
theorem attemptAC_decodeExn (timo : Nat) (p u : String) (s : ConnState)
    (d : Nat) (st : Int) (fu : String) (ct : Option String) (j t : PyRes)
    (diag : String) (hdec : decodePy ct j t = PyDecode.exn diag) :
    attemptAC timo p u s (NetEvent.response d st fu ct j t) =
      ({ call_id := s.call_id + 2,
         rows := s.rows ++
           [{ call_id := s.call_id + 1, project := p,
              t := s.clock, delta_t := d, url := u, redirect_url := "",
              response_size := 0, response_code := none, success := false,
              error := diag }],
         clock := s.clock + d + timo,
         starts := s.starts ++ [s.clock] }, none) := by
  simp [attemptAC, finallyAC, hdec]
  omega

/-- Unfolds one `AsyncConnector.get` iteration on a 5xx response with a
successful decode: the row built inside the `try` is discarded by the
`continue`; the `finally` block logs a row that still carries
`success = True` and an empty error, and both backoff sleeps happen. -/
theorem attemptAC_5xx (timo : Nat) (p u : String) (s : ConnState)
    (d : Nat) (st : Int) (fu : String) (ct : Option String) (j t : PyRes)
    (r : Payload) (size : Nat) (hdec : decodePy ct j t = PyDecode.ok r size)
    (hst : 500 ≤ st) :
    attemptAC timo p u s (NetEvent.response d st fu ct j t) =
      ({ call_id := s.call_id + 2,
         rows := s.rows ++
           [{ call_id := s.call_id + 1, project := p,
              t := s.clock, delta_t := d + timo, url := u,
              redirect_url := "", response_size := 0, response_code := none,
              success := true, error := "" }],
         clock := s.clock + d + timo + timo,
         starts := s.starts ++ [s.clock] }, none) := by
  simp [attemptAC, finallyAC, hdec, hst]
  omega

/-- Unfolds one `AsyncConnector.get` iteration on a response below 500
with a successful decode: the real row is written, then the `finally`
block triggered by `return r` writes a second, spurious row (fresh call
id, `success = True`, zero size, empty code) and sleeps before the
payload is returned. -/
theorem attemptAC_success (timo : Nat) (p u : String) (s : ConnState)
    (d : Nat) (st : Int) (fu : String) (ct : Option String) (j t : PyRes)
    (r : Payload) (size : Nat) (hdec : decodePy ct j t = PyDecode.ok r size)
    (hst : ¬ 500 ≤ st) :
    attemptAC timo p u s (NetEvent.response d st fu ct j t) =
      ({ call_id := s.call_id + 2,
         rows := s.rows ++
           [{ call_id := s.call_id, project := p, t := s.clock,
              delta_t := d, url := u, redirect_url := fu,
              response_size := size, response_code := some st,
              success := true, error := "" },
            { call_id := s.call_id + 1, project := p, t := s.clock,
              delta_t := d, url := u, redirect_url := "",
              response_size := 0, response_code := none, success := true,
              error := "" }],
         clock := s.clock + d + timo,
         starts := s.starts ++ [s.clock] }, some r) := by
  simp [attemptAC, finallyAC, hdec, hst]
  omega

/-- Every path through one `Connector.get` iteration is terminal: the
attempt either returns the success triple or raises `NameError`; the
`continue` of the 5xx branch is unreachable, so the loop never reaches a
second iteration. -/
theorem attemptC_terminal (p u : String) (s : ConnState) (ev : NetEvent) :
    (attemptC p u s ev).2.isSome = true ∧
      (attemptC p u s ev).1.starts = s.starts ++ [s.clock] := by
  cases ev with
  | response d st fu ct j t =>
    cases j with
    | ok dump =>
      by_cases hst : 500 ≤ st
      · simp [attemptC, exceptRowC, hst]
      · simp [attemptC, exceptRowC, hst]
    | exn diag => simp [attemptC, exceptRowC]
  | connErr d => simp [attemptC, exceptRowC]
  | timeoutErr d => simp [attemptC, exceptRowC]
  | otherErr d diag => simp [attemptC, exceptRowC]

/-- A `Connector.get` call performs at most one attempt: whatever the
events, the ghost list of attempt start times grows by at most one
entry. -/
theorem getCAux_at_most_one_attempt (p u : String) (evs : List NetEvent)
    (s : ConnState) :
    (getCAux p u evs s).1.starts.length ≤ s.starts.length + 1 := by
  cases evs with
  | nil => simp [getCAux]
  | cons ev rest =>
    obtain ⟨h1, h2⟩ := attemptC_terminal p u s ev
    rcases heq : attemptC p u s ev with ⟨s2, out⟩
    rw [heq] at h1 h2
    cases out with
    | none => simp at h1
    | some o => simp at h2; simp [getCAux, heq, h2]

/-- A failing first attempt of `Connector.get` appends exactly one failure
row and then raises `NameError` to the caller: the bare `rate_limit`
reference of line 165 is unresolvable.  Stated for a connection error on
the first attempt. -/
theorem getCAux_connErr_raises (p u : String) (d : Nat)
    (rest : List NetEvent) (s : ConnState) :
    getCAux p u (NetEvent.connErr d :: rest) s =
      ({ call_id := s.call_id + 1,
         rows := s.rows ++
           [{ call_id := s.call_id, project := p,
              t := s.clock, delta_t := d, url := u, redirect_url := "",
              response_size := 0, response_code := none, success := false,
              error := tracebackConnError }],
         clock := s.clock + d,
         starts := s.starts ++ [s.clock] },
       COutcome.raised nameErrorRateLimit) := by
  simp [getCAux, attemptC, exceptRowC]

/-- Shape of a retryable 5xx attempt with a successful body decode: a
response event whose status is at least 500 and whose decode step (per
the content type) returns a payload. -/
def retryable5xxOk : NetEvent → Prop
  | NetEvent.response _ st _ ct j t =>
      500 ≤ st ∧ ∃ r size, decodePy ct j t = PyDecode.ok r size
  | _ => False

/-- Running `AsyncConnector.get` through a block of 5xx attempts: each
such attempt appends exactly one row — the `finally` row, which carries
`success = True` and an empty response code — consumes two call ids, and
the loop continues with the remaining events. -/
theorem getACAux_all5xx (timo : Nat) (p u : String) (evs L2 : List NetEvent) :
    ∀ s : ConnState, (∀ ev ∈ evs, retryable5xxOk ev) →
      ∃ s2 : ConnState,
        getACAux timo p u (evs ++ L2) s = getACAux timo p u L2 s2 ∧
        s2.rows.map Row.success =
          s.rows.map Row.success ++ List.replicate evs.length true ∧
        s2.rows.map Row.response_code =
          s.rows.map Row.response_code ++ List.replicate evs.length none ∧
        s2.rows.length = s.rows.length + evs.length ∧
        s2.call_id = s.call_id + 2 * (evs.length : Int) := by
  induction evs with
  | nil => exact fun s _ => ⟨s, rfl, by simp, by simp, by simp, by simp⟩
  | cons ev evs ih =>
    intro s h
    have hev := h ev (List.mem_cons_self ev evs)
    cases ev with
    | connErr d => exact hev.elim
    | timeoutErr d => exact hev.elim
    | otherErr d diag => exact hev.elim
    | response d st fu ct j t =>
      obtain ⟨hst, r, size, hdec⟩ := hev
      have hstep := attemptAC_5xx timo p u s d st fu ct j t r size hdec hst
      obtain ⟨s2, heq2, hsucc2, hcode2, hlen2, hid2⟩ :=
        ih ((attemptAC timo p u s (NetEvent.response d st fu ct j t)).1)
          (fun e he => h e (List.mem_cons_of_mem _ he))
      refine ⟨s2, ?_, ?_, ?_, ?_, ?_⟩
      · have hred : getACAux timo p u
            ((NetEvent.response d st fu ct j t :: evs) ++ L2) s =
            getACAux timo p u (evs ++ L2)
              ((attemptAC timo p u s (NetEvent.response d st fu ct j t)).1) := by
          rw [List.cons_append]
          simp [getACAux, hstep]
        rw [hred, heq2]
      · rw [hsucc2, hstep]
        simp [List.replicate_succ]
      · rw [hcode2, hstep]
        simp [List.replicate_succ]
      · rw [hlen2, hstep]
        simp
        omega
      · rw [hid2, hstep]
        simp
        omega

/-- Every iteration of `AsyncConnector.get` appends at least one row; the
rows appended by one iteration have strictly increasing call ids, all of
them at least the incoming counter and below the outgoing counter, and
the counter strictly increases. -/
theorem attemptAC_rows_ids (timo : Nat) (p u : String) (s : ConnState)
    (ev : NetEvent) :
    ∃ new : List Row, (attemptAC timo p u s ev).1.rows = s.rows ++ new ∧
      new ≠ [] ∧
      List.Chain' (· < ·) (new.map Row.call_id) ∧
      (∀ r ∈ new, s.call_id ≤ r.call_id ∧
        r.call_id < (attemptAC timo p u s ev).1.call_id) ∧
      s.call_id < (attemptAC timo p u s ev).1.call_id := by
  cases ev with
  | connErr d =>
    rw [attemptAC_connErr]
    exact ⟨_, rfl, by simp <;> omega, by simp <;> omega, by simp <;> omega,
      by simp <;> omega⟩
  | timeoutErr d =>
    rw [attemptAC_timeoutErr]
    exact ⟨_, rfl, by simp <;> omega, by simp <;> omega, by simp <;> omega,
      by simp <;> omega⟩
  | otherErr d diag =>
    rw [attemptAC_otherErr]
    exact ⟨_, rfl, by simp <;> omega, by simp <;> omega, by simp <;> omega,
      by simp <;> omega⟩
  | response d st fu ct j t =>
    cases hdec : decodePy ct j t with
    | exn diag =>
      rw [attemptAC_decodeExn timo p u s d st fu ct j t diag hdec]
      exact ⟨_, rfl, by simp <;> omega, by simp <;> omega, by simp <;> omega,
        by simp <;> omega⟩
    | ok r size =>
      by_cases hst : 500 ≤ st
      · rw [attemptAC_5xx timo p u s d st fu ct j t r size hdec hst]
        exact ⟨_, rfl, by simp <;> omega, by simp <;> omega, by simp <;> omega,
          by simp <;> omega⟩
      · rw [attemptAC_success timo p u s d st fu ct j t r size hdec hst]
        exact ⟨_, rfl, by simp <;> omega, by simp <;> omega, by simp <;> omega,
          by simp <;> omega⟩

/-- Every iteration of `AsyncConnector.get` records its start time and
advances the clock by at least `timeout` before it ends: the `finally`
block sleeps on every path, including `continue` and `return`. -/
theorem attemptAC_clock_starts (timo : Nat) (p u : String) (s : ConnState)
    (ev : NetEvent) :
    (attemptAC timo p u s ev).1.starts = s.starts ++ [s.clock] ∧
      s.clock + timo ≤ (attemptAC timo p u s ev).1.clock := by
  cases ev with
  | connErr d => rw [attemptAC_connErr]; exact ⟨rfl, by simp <;> omega⟩
  | timeoutErr d => rw [attemptAC_timeoutErr]; exact ⟨rfl, by simp <;> omega⟩
  | otherErr d diag => rw [attemptAC_otherErr]; exact ⟨rfl, by simp <;> omega⟩
  | response d st fu ct j t =>
    cases hdec : decodePy ct j t with
    | exn diag =>
      rw [attemptAC_decodeExn timo p u s d st fu ct j t diag hdec]
      exact ⟨rfl, by simp <;> omega⟩
    | ok r size =>
      by_cases hst : 500 ≤ st
      · rw [attemptAC_5xx timo p u s d st fu ct j t r size hdec hst]
        exact ⟨rfl, by simp <;> omega⟩
      · rw [attemptAC_success timo p u s d st fu ct j t r size hdec hst]
        exact ⟨rfl, by simp <;> omega⟩

/-- Start times of the attempts run by one `AsyncConnector.get` call are
separated by at least `timeout` seconds: the `finally` sleep runs before
each following attempt begins. -/
theorem getACAux_starts_sep (timo : Nat) (p u : String)
    (evs : List NetEvent) :
    ∀ s : ConnState, (∀ x ∈ s.starts, x + timo ≤ s.clock) →
      List.Chain' (fun a b => a + timo ≤ b) s.starts →
      List.Chain' (fun a b => a + timo ≤ b)
        ((getACAux timo p u evs s).1.starts) ∧
      (∀ x ∈ (getACAux timo p u evs s).1.starts,
        x + timo ≤ (getACAux timo p u evs s).1.clock) := by
  induction evs with
  | nil => exact fun s h1 h2 => ⟨h2, h1⟩
  | cons ev rest ih =>
    intro s h1 h2
    obtain ⟨hsta, hclk⟩ := attemptAC_clock_starts timo p u s ev
    rcases heq : attemptAC timo p u s ev with ⟨s2, out⟩
    rw [heq] at hsta hclk
    simp only at hsta hclk
    have h1n : ∀ x ∈ s2.starts, x + timo ≤ s2.clock := by
      intro x hx
      rw [hsta] at hx
      rcases List.mem_append.mp hx with hx | hx
      · have := h1 x hx
        omega
      · simp at hx
        omega
    have h2n : List.Chain' (fun a b => a + timo ≤ b) s2.starts := by
      rw [hsta]
      refine List.chain'_append.mpr ⟨h2, by simp, ?_⟩
      intro a ha b hb
      simp at hb
      obtain ⟨hne, hlast⟩ := List.mem_getLast?_eq_getLast ha
      have hmem : a ∈ s.starts := by
        rw [hlast]
        exact List.getLast_mem hne
      have := h1 a hmem
      omega
    cases out with
    | some r => simpa [getACAux, heq] using ⟨h2n, h1n⟩
    | none =>
      have := ih s2 h1n h2n
      simpa [getACAux, heq] using this

/-- Call ids of the rows appended by one `AsyncConnector.get` call are
strictly increasing and below the final counter; a call given at least
one attempt appends at least one row, and the row list only ever
grows. -/
theorem getACAux_ids_mono (timo : Nat) (p u : String)
    (evs : List NetEvent) :
    ∀ s : ConnState, (∀ r ∈ s.rows, r.call_id < s.call_id) →
      List.Chain' (· < ·) (s.rows.map Row.call_id) →
      List.Chain' (· < ·)
        ((getACAux timo p u evs s).1.rows.map Row.call_id) ∧
      (∀ r ∈ (getACAux timo p u evs s).1.rows,
        r.call_id < (getACAux timo p u evs s).1.call_id) ∧
      s.rows.length ≤ (getACAux timo p u evs s).1.rows.length ∧
      (evs ≠ [] →
        s.rows.length < (getACAux timo p u evs s).1.rows.length) := by
  induction evs with
  | nil =>
    exact fun s h1 h2 => ⟨h2, h1, le_refl _, fun h => absurd rfl h⟩
  | cons ev rest ih =>
    intro s h1 h2
    obtain ⟨new, hrows, hne, hchn, hbnd, hlt⟩ := attemptAC_rows_ids timo p u s ev
    rcases heq : attemptAC timo p u s ev with ⟨s2, out⟩
    rw [heq] at hrows hbnd hlt
    simp only at hrows hbnd hlt
    have h1n : ∀ r ∈ s2.rows, r.call_id < s2.call_id := by
      intro r hr
      rw [hrows] at hr
      rcases List.mem_append.mp hr with hr | hr
      · have := h1 r hr
        omega
      · exact (hbnd r hr).2
    have h2n : List.Chain' (· < ·) (s2.rows.map Row.call_id) := by
      rw [hrows, List.map_append]
      refine List.chain'_append.mpr ⟨h2, hchn, ?_⟩
      intro a ha b hb
      obtain ⟨hne2, hlast⟩ := List.mem_getLast?_eq_getLast ha
      have hamem : a ∈ s.rows.map Row.call_id := by
        rw [hlast]
        exact List.getLast_mem hne2
      obtain ⟨ra, hra, hraid⟩ := List.mem_map.mp hamem
      obtain ⟨rb, hrb, hrbid⟩ := List.mem_map.mp (List.mem_of_mem_head? hb)
      have hb1 := (hbnd rb hrb).1
      have ha1 := h1 ra hra
      omega
    have hlen : s.rows.length < s2.rows.length := by
      rw [hrows]
      simp
      exact List.length_pos.mpr hne
    cases out with
    | some r =>
      refine ?_
      simp only [getACAux, heq]
      exact ⟨h2n, h1n, by omega, fun _ => hlen⟩
    | none =>
      obtain ⟨c1, c2, c3, c4⟩ := ih s2 h1n h2n
      simp only [getACAux, heq]
      exact ⟨c1, c2, by omega, fun _ => by omega⟩

/-- Unfolds `splitCh` on a leading separator. -/
theorem splitCh_cons_eq (sep : Char) (cs : List Char) :
    splitCh sep (sep :: cs) = [] :: splitCh sep cs := by
  simp [splitCh]

/-- Unfolds `splitCh` on a leading non-separator. -/
theorem splitCh_cons_ne (sep c : Char) (cs : List Char) (hc : c ≠ sep) :
    splitCh sep (c :: cs) =
      match splitCh sep cs with
      | [] => [[c]]
      | h :: t => (c :: h) :: t := by
  simp only [splitCh, if_neg hc]

/-- Splitting never produces an empty list of chunks. -/
theorem splitCh_ne_nil (sep : Char) : ∀ l : List Char, splitCh sep l ≠ []
  | [] => by simp [splitCh]
  | c :: cs => by
    simp only [splitCh]
    split
    · simp
    · split <;> simp

/-- Splitting a separator-free list yields that list as the only chunk. -/
theorem splitCh_not_mem (sep : Char) :
    ∀ l : List Char, sep ∉ l → splitCh sep l = [l]
  | [], _ => rfl
  | c :: cs, h => by
    have hc : c ≠ sep := fun hcc => h (hcc ▸ List.mem_cons_self c cs)
    have hcs : sep ∉ cs := fun hm => h (List.mem_cons_of_mem c hm)
    rw [splitCh_cons_ne sep c cs hc, splitCh_not_mem sep cs hcs]

/-- Splitting across a separator that follows a separator-free prefix
peels off the prefix as the first chunk. -/
theorem splitCh_append_sep (sep : Char) (b : List Char) :
    ∀ a : List Char, sep ∉ a →
      splitCh sep (a ++ sep :: b) = a :: splitCh sep b := by
  intro a
  induction a with
  | nil => intro _; rw [List.nil_append, splitCh_cons_eq]
  | cons c a ih =>
    intro h
    have hc : c ≠ sep := fun hcc => h (hcc ▸ List.mem_cons_self c a)
    have ha : sep ∉ a := fun hm => h (List.mem_cons_of_mem c hm)
    rw [List.cons_append, splitCh_cons_ne sep c _ hc, ih ha]

/-- Number of chunks adds across a separator occurrence. -/
theorem splitCh_length_append (sep : Char) (b : List Char) :
    ∀ a : List Char,
      (splitCh sep (a ++ sep :: b)).length =
        (splitCh sep a).length + (splitCh sep b).length := by
  intro a
  induction a with
  | nil =>
    rw [List.nil_append, splitCh_cons_eq]
    simp [splitCh]
    omega
  | cons c a ih =>
    by_cases hc : c = sep
    · rw [List.cons_append, hc, splitCh_cons_eq, splitCh_cons_eq]
      simp [ih]
      omega
    · rw [List.cons_append, splitCh_cons_ne sep c _ hc,
        splitCh_cons_ne sep c _ hc]
      rcases hm : splitCh sep (a ++ sep :: b) with _ | ⟨h1, t1⟩
      · exact absurd hm (splitCh_ne_nil sep _)
      · rcases hm2 : splitCh sep a with _ | ⟨h2, t2⟩
        · exact absurd hm2 (splitCh_ne_nil sep _)
        · have hlen := ih
          rw [hm, hm2] at hlen
          simp at hlen ⊢
          omega

/-- The last chunk of a split is the suffix after the last separator. -/
theorem splitCh_getLast_append (sep : Char) (b : List Char)
    (hb : sep ∉ b) :
    ∀ a : List Char, (splitCh sep (a ++ sep :: b)).getLast? = some b := by
  intro a
  induction a with
  | nil =>
    rw [List.nil_append, splitCh_cons_eq, splitCh_not_mem sep b hb]
    rfl
  | cons c a ih =>
    by_cases hc : c = sep
    · rw [List.cons_append, hc, splitCh_cons_eq]
      rcases hm : splitCh sep (a ++ sep :: b) with _ | ⟨h1, t1⟩
      · exact absurd hm (splitCh_ne_nil sep _)
      · rw [hm] at ih
        rw [List.getLast?_cons_cons]
        exact ih
    · rw [List.cons_append, splitCh_cons_ne sep c _ hc]
      rcases hm : splitCh sep (a ++ sep :: b) with _ | ⟨h1, t1⟩
      · exact absurd hm (splitCh_ne_nil sep _)
      · have hlen := splitCh_length_append sep b a
        rw [hm] at hlen
        rcases t1 with _ | ⟨y, ys⟩
        · rcases hma : splitCh sep a with _ | ⟨x, xs⟩
          · exact absurd hma (splitCh_ne_nil sep a)
          · rcases hmb : splitCh sep b with _ | ⟨z, zs⟩
            · exact absurd hmb (splitCh_ne_nil sep b)
            · rw [hma, hmb] at hlen
              simp at hlen
              exact absurd hlen (by omega)
        · rw [hm] at ih
          rw [List.getLast?_cons_cons] at ih ⊢
          exact ih

/-- Facts about the ten digit characters. -/
theorem digitChar_good (k : Nat) (hk : k < 10) :
    (Nat.digitChar k).isDigit = true ∧
      (Nat.digitChar k).isWhitespace = false ∧
      Nat.digitChar k ≠ '+' ∧ Nat.digitChar k ≠ '-' ∧
      Nat.digitChar k ≠ ';' ∧ Nat.digitChar k ≠ '\n' ∧
      (Nat.digitChar k).toNat = 48 + k := by
  interval_cases k <;> decide

/-- The decimal rendering of a natural is a nonempty list of digit
characters whose base-10 value recovers the number. -/
theorem natDecimalAux_spec (fuel : Nat) :
    ∀ n, n < fuel →
      natDecimalAux fuel n ≠ [] ∧
      (∀ c ∈ natDecimalAux fuel n,
        c.isDigit = true ∧ c.isWhitespace = false ∧ c ≠ '+' ∧ c ≠ '-' ∧
          c ≠ ';' ∧ c ≠ '\n') ∧
      ∀ a : Nat,
        (natDecimalAux fuel n).foldl (fun a c => a * 10 + (c.toNat - 48)) a =
          a * 10 ^ (natDecimalAux fuel n).length + n := by
  induction fuel with
  | zero => intro n hn; omega
  | succ fuel ih =>
    intro n hn
    by_cases h10 : n < 10
    · simp only [natDecimalAux, if_pos h10]
      obtain ⟨hd, hw, hp, hm, hs, hnl, ht⟩ := digitChar_good n h10
      refine ⟨by simp, ?_, ?_⟩
      · intro c hc
        simp at hc
        subst hc
        exact ⟨hd, hw, hp, hm, hs, hnl⟩
      · intro a
        simp [ht] <;> omega
    · simp only [natDecimalAux, if_neg h10]
      have hdiv : n / 10 < fuel := by
        have := Nat.div_lt_self (show 0 < n by omega) (show 1 < 10 by omega)
        omega
      obtain ⟨h1, h2, h3⟩ := ih (n / 10) hdiv
      obtain ⟨hd, hw, hp, hm, hs, hnl, ht⟩ :=
        digitChar_good (n % 10) (Nat.mod_lt n (by omega))
      refine ⟨by simp [h1], ?_, ?_⟩
      · intro c hc
        rcases List.mem_append.mp hc with hc | hc
        · exact h2 c hc
        · simp at hc
          subst hc
          exact ⟨hd, hw, hp, hm, hs, hnl⟩
      · intro a
        rw [List.foldl_append, List.length_append, h3 a]
        simp only [List.foldl_cons, List.foldl_nil, List.length_cons,
          List.length_nil, ht]
        rw [pow_succ]
        have key : (a * 10 ^ (natDecimalAux fuel (n / 10)).length + n / 10)
            * 10 + (48 + n % 10 - 48) =
            a * (10 ^ (natDecimalAux fuel (n / 10)).length * 10) +
              (10 * (n / 10) + n % 10) := by
          have h48 : 48 + n % 10 - 48 = n % 10 := by omega
          rw [h48]
          ring
        rw [key, Nat.div_add_mod]

/-- The decimal rendering of `n` is nonempty. -/
theorem natDecimal_ne_nil (n : Nat) : natDecimal n ≠ [] :=
  (natDecimalAux_spec (n + 1) n (Nat.lt_succ_self n)).1

/-- Every character of the decimal rendering is a digit character. -/
theorem natDecimal_mem (n : Nat) :
    ∀ c ∈ natDecimal n,
      c.isDigit = true ∧ c.isWhitespace = false ∧ c ≠ '+' ∧ c ≠ '-' ∧
        c ≠ ';' ∧ c ≠ '\n' :=
  (natDecimalAux_spec (n + 1) n (Nat.lt_succ_self n)).2.1

/-- Parsing the decimal rendering of `n` recovers `n`. -/
theorem digitsVal_natDecimal (n : Nat) : digitsVal (natDecimal n) = some n := by
  have hne := natDecimal_ne_nil n
  have hmem := natDecimal_mem n
  have hval := (natDecimalAux_spec (n + 1) n (Nat.lt_succ_self n)).2.2 0
  unfold digitsVal
  rw [if_neg (by simp [List.isEmpty_iff, hne])]
  rw [if_pos (List.all_eq_true.mpr (fun c hc => (hmem c hc).1))]
  unfold natDecimal
  rw [hval]
  simp

/-- Dropping by a predicate that fails on every element is the
identity. -/
theorem dropWhile_id_of (p : Char → Bool) (l : List Char)
    (h : ∀ c ∈ l, p c = false) : l.dropWhile p = l := by
  cases l with
  | nil => rfl
  | cons a t =>
    rw [List.dropWhile_cons, h a (List.mem_cons_self a t)]
    simp

/-- Trimming a whitespace-free list is the identity. -/
theorem trimCh_id (l : List Char) (h : ∀ c ∈ l, c.isWhitespace = false) :
    trimCh l = l := by
  unfold trimCh
  rw [dropWhile_id_of _ l h]
  rw [dropWhile_id_of _ l.reverse (fun c hc => h c (List.mem_reverse.mp hc))]
  exact List.reverse_reverse l

/-- Python `int(str(n))` is the identity on the naturals of the model. -/
theorem pyParseInt_pyStrNat (n : Nat) :
    pyParseInt (pyStrNat n) = some (n : Int) := by
  have hne := natDecimal_ne_nil n
  have hmem := natDecimal_mem n
  have htrim : trimCh (natDecimal n) = natDecimal n :=
    trimCh_id _ (fun c hc => (hmem c hc).2.1)
  have hdata : (pyStrNat n).data = natDecimal n := rfl
  unfold pyParseInt
  rw [hdata, htrim]
  rcases hcons : natDecimal n with _ | ⟨c, cs⟩
  · exact absurd hcons hne
  · have hc := hmem c (by rw [hcons]; exact List.mem_cons_self c cs)
    simp only []
    rw [if_neg hc.2.2.1, if_neg hc.2.2.2.1]
    rw [← hcons, digitsVal_natDecimal]
    rfl

/-- Python `int(str(i))` is the identity on the integers of the model. -/
theorem pyParseInt_pyStrInt (i : Int) : pyParseInt (pyStrInt i) = some i := by
  cases i with
  | ofNat n => exact pyParseInt_pyStrNat n
  | negSucc n =>
    have hmem := natDecimal_mem (n + 1)
    have htrim : trimCh ('-' :: natDecimal (n + 1)) = '-' :: natDecimal (n + 1) := by
      refine trimCh_id _ ?_
      intro c hc
      rcases List.mem_cons.mp hc with hc | hc
      · subst hc; decide
      · exact (hmem c hc).2.1
    have hdata : (pyStrInt (Int.negSucc n)).data = '-' :: natDecimal (n + 1) := rfl
    unfold pyParseInt
    rw [hdata, htrim]
    simp only [reduceIte]
    rw [digitsVal_natDecimal]
    simp [Int.negSucc_eq]

/-- Data of a `String.mk`. -/
theorem data_mk (l : List Char) : (String.mk l).data = l := rfl

/-- Eta rule for strings. -/
theorem mk_data_eta (s : String) : String.mk s.data = s := rfl

/-- Data of the newline string. -/
theorem data_newline : ("\n" : String).data = ['\n'] := rfl

/-- Appending the empty string is the identity. -/
theorem str_append_empty (s : String) : s ++ "" = s :=
  String.ext (by rw [String.data_append]; simp [show ("" : String).data = [] from rfl])

/-- String append is associative. -/
theorem str_append_assoc (a b c : String) : a ++ b ++ c = a ++ (b ++ c) :=
  String.ext (by simp [String.data_append, List.append_assoc])

/-- The characters of `str(i)` exclude the separator. -/
theorem pyStrInt_no_semi (i : Int) : ';' ∉ (pyStrInt i).data := by
  cases i with
  | ofNat n =>
    intro hmem
    exact ((natDecimal_mem n ';' hmem).2.2.2.2.1) rfl
  | negSucc n =>
    intro hmem
    rcases List.mem_cons.mp hmem with hc | hc
    · exact absurd hc.symm (by decide)
    · exact ((natDecimal_mem (n + 1) ';' hc).2.2.2.2.1) rfl

/-- The characters of `str(i)` exclude the newline. -/
theorem pyStrInt_no_newline (i : Int) : '\n' ∉ (pyStrInt i).data := by
  cases i with
  | ofNat n =>
    intro hmem
    exact ((natDecimal_mem n '\n' hmem).2.2.2.2.2) rfl
  | negSucc n =>
    intro hmem
    rcases List.mem_cons.mp hmem with hc | hc
    · exact absurd hc.symm (by decide)
    · exact ((natDecimal_mem (n + 1) '\n' hc).2.2.2.2.2) rfl

/-- The characters of `str(n)` exclude the separator. -/
theorem pyStrNat_no_semi (n : Nat) : ';' ∉ (pyStrNat n).data :=
  pyStrInt_no_semi (Int.ofNat n)

/-- The characters of `str(n)` exclude the newline. -/
theorem pyStrNat_no_newline (n : Nat) : '\n' ∉ (pyStrNat n).data :=
  pyStrInt_no_newline (Int.ofNat n)

/-- Rendering an integer is nonempty. -/
theorem pyStrInt_ne_nil (i : Int) : (pyStrInt i).data ≠ [] := by
  cases i with
  | ofNat n => exact natDecimal_ne_nil n
  | negSucc n => simp [pyStrInt]

/-- Prepends one serialized field and a separator. -/
def fieldSep (s : String) (rest : List Char) : List Char :=
  s.data ++ ';' :: rest

/-- The tail of a serialized row after the call-id field and its
separator. -/
def renderTail (r : Row) : List Char :=
  fieldSep r.project (fieldSep (pyStrNat r.t) (fieldSep (pyStrNat r.delta_t)
    (fieldSep r.url (fieldSep r.redirect_url
    (fieldSep (pyStrNat r.response_size) (fieldSep (renderCode r.response_code)
    (fieldSep (renderBool r.success) r.error.data)))))))

/-- Character-level decomposition of a serialized row: the call-id field,
a separator, and the rest. -/
theorem renderRow_data (r : Row) :
    (renderRow r).data = fieldSep (pyStrInt r.call_id) (renderTail r) := by
  simp [renderRow, renderTail, fieldSep, String.data_append,
    show (";" : String).data = [';'] from rfl]

/-- Splitting at separators peels off a separator-free field. -/
theorem splitCh_fieldSep (s : String) (rest : List Char) (hs : ';' ∉ s.data) :
    splitCh ';' (fieldSep s rest) = s.data :: splitCh ';' rest :=
  splitCh_append_sep ';' rest s.data hs

/-- A serialized row is nonempty. -/
theorem renderRow_data_ne_nil (r : Row) : (renderRow r).data ≠ [] := by
  rw [renderRow_data]
  simp [fieldSep]

/-- The first `;`-field of a serialized row is the rendered call id. -/
theorem firstField_renderRow (r : Row) :
    firstField (renderRow r) = pyStrInt r.call_id := by
  unfold firstField
  rw [renderRow_data, splitCh_fieldSep _ _ (pyStrInt_no_semi r.call_id)]
  exact mk_data_eta (pyStrInt r.call_id)

/-- Data of the block of writes for a leading row. -/
theorem rowsBlock_data_cons (r : Row) (rest : List Row) :
    (rowsBlock (r :: rest)).data =
      '\n' :: ((renderRow r).data ++ (rowsBlock rest).data) := by
  show (("\n" ++ renderRow r) ++ rowsBlock rest).data = _
  simp [String.data_append, data_newline]

/-- Appending one more row appends one more newline-prefixed record to
the block of writes. -/
theorem rowsBlock_append (rows : List Row) (r : Row) :
    rowsBlock (rows ++ [r]) = rowsBlock rows ++ ("\n" ++ renderRow r) := by
  induction rows with
  | nil =>
    show ("\n" ++ renderRow r) ++ rowsBlock [] = rowsBlock [] ++ ("\n" ++ renderRow r)
    rw [show rowsBlock [] = "" from rfl, str_append_empty]
    exact (String.ext rfl)
  | cons r0 rest ih =>
    show ("\n" ++ renderRow r0) ++ rowsBlock (rest ++ [r]) = _
    rw [ih, ← str_append_assoc]
    rfl

/-- Splitting the block of writes at newlines: one empty chunk from the
leading newline of the first record, then one chunk per record. -/
theorem splitCh_rowsBlock :
    ∀ rows : List Row, (∀ x ∈ rows, '\n' ∉ (renderRow x).data) →
      splitCh '\n' (rowsBlock rows).data =
        [] :: rows.map (fun x => (renderRow x).data)
  | [], _ => rfl
  | r :: rest, h => by
    rw [rowsBlock_data_cons, splitCh_cons_eq]
    cases rest with
    | nil =>
      rw [show (rowsBlock ([] : List Row)).data = [] from rfl, List.append_nil]
      rw [splitCh_not_mem '\n' _ (h r (List.mem_cons_self r []))]
      rfl
    | cons r2 rest2 =>
      have ihh := splitCh_rowsBlock (r2 :: rest2)
        (fun x hx => h x (List.mem_cons_of_mem r hx))
      rw [rowsBlock_data_cons, splitCh_cons_eq] at ihh
      have htail := (List.cons.injEq _ _ _ _).mp ihh |>.2
      rw [rowsBlock_data_cons,
        splitCh_append_sep '\n' _ _ (h r (List.mem_cons_self r _)), htail]
      rfl

/-- The last character of a nonempty block of writes is the last
character of the last record, never a newline. -/
theorem rowsBlock_getLast :
    ∀ rows : List Row, rows ≠ [] →
      (∀ x ∈ rows, '\n' ∉ (renderRow x).data) →
      ∃ c, (rowsBlock rows).data.getLast? = some c ∧ c ≠ '\n'
  | [], hne, _ => absurd rfl hne
  | r :: rest, _, h => by
    rw [rowsBlock_data_cons]
    cases rest with
    | nil =>
      rw [show (rowsBlock ([] : List Row)).data = [] from rfl, List.append_nil]
      have hner := renderRow_data_ne_nil r
      rcases hr : (renderRow r).data.getLast? with _ | c
      · rw [List.getLast?_eq_none_iff] at hr
        exact absurd hr hner
      · refine ⟨c, ?_, ?_⟩
        · rw [show ('\n' :: (renderRow r).data) = ['\n'] ++ (renderRow r).data
            from rfl, List.getLast?_append_of_ne_nil _ hner]
          exact hr
        · obtain ⟨hne2, heq⟩ := List.mem_getLast?_eq_getLast hr
          intro hcc
          exact h r (List.mem_cons_self r [])
            (hcc ▸ heq ▸ List.getLast_mem hne2)
    | cons r2 rest2 =>
      have hb2 : (rowsBlock (r2 :: rest2)).data ≠ [] := by
        rw [rowsBlock_data_cons]
        simp
      obtain ⟨c, hc1, hc2⟩ := rowsBlock_getLast (r2 :: rest2) (by simp)
        (fun x hx => h x (List.mem_cons_of_mem r hx))
      refine ⟨c, ?_, hc2⟩
      rw [show ('\n' :: ((renderRow r).data ++ (rowsBlock (r2 :: rest2)).data))
          = ('\n' :: (renderRow r).data) ++ (rowsBlock (r2 :: rest2)).data
          from by simp, List.getLast?_append_of_ne_nil _ hb2]
      exact hc1

/-- A freshly created log (header and trailing newline, no rows yet) has
exactly one line, the header. -/
theorem pyLines_header_only (hdr : String) (hh : '\n' ∉ hdr.data) :
    pyLines (hdr ++ "\n") = [hdr] := by
  have hdata : (hdr ++ "\n").data = hdr.data ++ ['\n'] := by
    simp [String.data_append, data_newline]
  unfold pyLines
  rw [hdata]
  rw [if_neg (by simp), if_pos (List.getLast?_concat hdr.data)]
  rw [show hdr.data ++ ['\n'] = hdr.data ++ '\n' :: [] from rfl,
    splitCh_append_sep '\n' [] hdr.data hh]
  rfl

/-- Lines of a log holding the header plus at least one appended row: the
header line, one empty line coming from the newline prefix of the first
record, then one line per record. -/
theorem pyLines_log (hdr : String) (rows : List Row) (hne : rows ≠ [])
    (hh : '\n' ∉ hdr.data)
    (h : ∀ x ∈ rows, '\n' ∉ (renderRow x).data) :
    pyLines (hdr ++ "\n" ++ rowsBlock rows) =
      hdr :: "" :: rows.map renderRow := by
  have hdata : (hdr ++ "\n" ++ rowsBlock rows).data =
      hdr.data ++ '\n' :: (rowsBlock rows).data := by
    simp [String.data_append, data_newline]
  obtain ⟨c, hc1, hc2⟩ := rowsBlock_getLast rows hne h
  have hbne : (rowsBlock rows).data ≠ [] := by
    intro hx
    rw [hx] at hc1
    simp at hc1
  unfold pyLines
  rw [hdata]
  rw [if_neg (by simp)]
  rw [if_neg (by
    rw [show hdr.data ++ '\n' :: (rowsBlock rows).data =
        (hdr.data ++ ['\n']) ++ (rowsBlock rows).data from by simp,
      List.getLast?_append_of_ne_nil _ hbne, hc1]
    simp [hc2])]
  rw [splitCh_append_sep '\n' _ hdr.data hh, splitCh_rowsBlock rows h]
  simp [mk_data_eta]

/-- Reopening (without overwrite) a model log that ends with an appended
row resumes the call-id numbering at that row id plus one. -/
theorem startCallId_resume (rows : List Row) (r : Row)
    (h : ∀ x ∈ rows ++ [r], '\n' ∉ (renderRow x).data) :
    startCallId (logContentsAC (rows ++ [r])) = r.call_id + 1 := by
  have hh : '\n' ∉ headerAC.data := by decide
  have hlines := pyLines_log headerAC (rows ++ [r]) (by simp) hh h
  unfold startCallId
  rw [show logContentsAC (rows ++ [r]) =
      headerAC ++ "\n" ++ rowsBlock (rows ++ [r]) from rfl, hlines]
  rw [if_neg (by simp)]
  have hlast : (headerAC :: "" :: (rows ++ [r]).map renderRow).getLastD "" =
      renderRow r := by
    rw [show headerAC :: "" :: (rows ++ [r]).map renderRow =
        (headerAC :: "" :: rows.map renderRow) ++ [renderRow r] from by simp]
    exact List.getLastD_concat _ _ _
  rw [hlast, firstField_renderRow, pyParseInt_pyStrInt]

/-- A serialized row splits at `;` into exactly the ten fields in source
order, provided the free-text fields do not themselves contain the
separator. -/
theorem splitCh_renderRow (r : Row)
    (hp : ';' ∉ r.project.data) (hu : ';' ∉ r.url.data)
    (hru : ';' ∉ r.redirect_url.data) (he : ';' ∉ r.error.data) :
    (splitCh ';' (renderRow r).data).map (fun l => String.mk l) =
      [pyStrInt r.call_id, r.project, pyStrNat r.t, pyStrNat r.delta_t,
       r.url, r.redirect_url, pyStrNat r.response_size,
       renderCode r.response_code, renderBool r.success, r.error] := by
  have hcode : ';' ∉ (renderCode r.response_code).data := by
    cases r.response_code with
    | none => simp [renderCode, show ("" : String).data = [] from rfl]
    | some c => exact pyStrInt_no_semi c
  have hbool : ';' ∉ (renderBool r.success).data := by
    cases r.success <;> decide
  rw [renderRow_data, splitCh_fieldSep _ _ (pyStrInt_no_semi r.call_id)]
  unfold renderTail
  rw [splitCh_fieldSep _ _ hp, splitCh_fieldSep _ _ (pyStrNat_no_semi r.t),
    splitCh_fieldSep _ _ (pyStrNat_no_semi r.delta_t),
    splitCh_fieldSep _ _ hu, splitCh_fieldSep _ _ hru,
    splitCh_fieldSep _ _ (pyStrNat_no_semi r.response_size),
    splitCh_fieldSep _ _ hcode, splitCh_fieldSep _ _ hbool,
    splitCh_not_mem ';' r.error.data he]
  simp [mk_data_eta]

/-- A log holding only the header has at most one line, so numbering
starts at zero. -/
theorem startCallId_header_only : startCallId (headerAC ++ "\n") = 0 := by
  unfold startCallId
  rw [pyLines_header_only headerAC (by decide)]
  rfl

/-- C10: in `AsyncConnector.get`, a response that arrives without a
`Content-Type` header is never decoded as text even when a body is
available and whatever the status: `'json' in None` raises `TypeError`,
the catch-all classifies the attempt as a generic failure, the `finally`
block logs one row with `success = False`, `response_size = 0`, empty
response code and redirect URL and the `TypeError` traceback as the
error, and the loop proceeds to the next attempt. -/
theorem claimC10_theorem (timo d : Nat) (st : Int) (p u fu : String)
    (j t : PyRes) (rest : List NetEvent) (s : ConnState) :
    attemptAC timo p u s (NetEvent.response d st fu none j t) =
      ({ call_id := s.call_id + 2,
         rows := s.rows ++
           [{ call_id := s.call_id + 1, project := p,
              t := s.clock, delta_t := d, url := u, redirect_url := "",
              response_size := 0, response_code := none, success := false,
              error := tracebackTypeErrorNone }],
         clock := s.clock + d + timo,
         starts := s.starts ++ [s.clock] }, none) ∧
    getACAux timo p u (NetEvent.response d st fu none j t :: rest) s =
      getACAux timo p u rest
        (attemptAC timo p u s (NetEvent.response d st fu none j t)).1 := by
  have h1 := attemptAC_decodeExn timo p u s d st fu none j t
    tracebackTypeErrorNone rfl
  exact ⟨h1, by simp [getACAux, h1]⟩

/-- C2 (amended): in `AsyncConnector.get`, an attempt whose response has
status at least 500 (with a successful decode) is logged as exactly one
row, but that row is written by the `finally` block and carries
`success = True`, an empty error, an empty response code and
`response_size = 0`; the backoff delay is applied twice (once in the 5xx
branch, once in the `finally` block) and the loop continues.  In
`Connector.get` the 5xx branch instead raises `NameError`
(see `claimC2_counterexample` and C3). -/
theorem claimC2_amended (timo d : Nat) (st : Int) (p u fu : String)
    (ct : Option String) (j t : PyRes) (r : Payload) (size : Nat)
    (s : ConnState) (rest : List NetEvent)
    (hdec : decodePy ct j t = PyDecode.ok r size) (hst : 500 ≤ st) :
    attemptAC timo p u s (NetEvent.response d st fu ct j t) =
      ({ call_id := s.call_id + 2,
         rows := s.rows ++
           [{ call_id := s.call_id + 1, project := p,
              t := s.clock, delta_t := d + timo, url := u,
              redirect_url := "", response_size := 0, response_code := none,
              success := true, error := "" }],
         clock := s.clock + d + timo + timo,
         starts := s.starts ++ [s.clock] }, none) ∧
    getACAux timo p u (NetEvent.response d st fu ct j t :: rest) s =
      getACAux timo p u rest
        (attemptAC timo p u s (NetEvent.response d st fu ct j t)).1 := by
  have h1 := attemptAC_5xx timo p u s d st fu ct j t r size hdec hst
  exact ⟨h1, by simp [getACAux, h1]⟩

/-- Witness for C2 at a concrete 5xx attempt. -/
theorem claimC2_witness :
    attemptAC 5 "p" "u" ⟨0, [], 0, []⟩
        (NetEvent.response 0 503 "u" (some "application/json")
          (PyRes.ok "[1]") (PyRes.ok "x")) =
      ({ call_id := 2,
         rows :=
           [{ call_id := 1, project := "p", t := 0, delta_t := 5,
              url := "u", redirect_url := "", response_size := 0,
              response_code := none, success := true, error := "" }],
         clock := 10, starts := [0] }, none) := by
  have h := claimC2_amended 5 0 503 "p" "u" "u" (some "application/json")
    (PyRes.ok "[1]") (PyRes.ok "x") (Payload.jsonData "[1]") 3
    ⟨0, [], 0, []⟩ [] (by decide) (by decide)
  simpa using h.1

/-- Counterexample to C2 as stated: the single row logged for a 5xx
attempt of `AsyncConnector.get` has `success = True`, not
`success = False`. -/
theorem claimC2_counterexample :
    ((attemptAC 5 "p" "u" ⟨0, [], 0, []⟩
        (NetEvent.response 0 503 "u" (some "application/json")
          (PyRes.ok "[1]") (PyRes.ok "x"))).1.rows.map Row.success = [true]) ∧
    ((attemptAC 5 "p" "u" ⟨0, [], 0, []⟩
        (NetEvent.response 0 503 "u" (some "application/json")
          (PyRes.ok "[1]") (PyRes.ok "x"))).1.rows.map Row.success ≠ [false]) := by
  constructor <;> decide

/-- C1 (amended): if the first `k` attempts of one `AsyncConnector.get`
call observe 5xx responses (with successful decodes) and the next attempt
observes a response below 500 whose decode yields payload `r`, then the
call returns `r`, but the audit log gains `k + 2` rows — one `finally`
row per 5xx attempt plus the real success row and a spurious `finally`
row for the successful attempt — the last logged row has
`success = True`, and each attempt consumes two call identifiers, so the
counter advances by `2 * (k + 1)`.  The claimed `k + 1` rows and
one-id-per-attempt accounting do not hold (see
`claimC1_counterexample`). -/
theorem claimC1_amended (timo : Nat) (p u : String) (evs : List NetEvent)
    (d : Nat) (st : Int) (fu : String) (ct : Option String) (j t : PyRes)
    (r : Payload) (size : Nat) (rest : List NetEvent) (s : ConnState)
    (h5 : ∀ ev ∈ evs, retryable5xxOk ev)
    (hdec : decodePy ct j t = PyDecode.ok r size)
    (hst2 : 200 ≤ st) (hst3 : st < 300) :
    (getACAux timo p u (evs ++ NetEvent.response d st fu ct j t :: rest) s).2
        = some r ∧
    (getACAux timo p u (evs ++ NetEvent.response d st fu ct j t :: rest)
        s).1.rows.length = s.rows.length + evs.length + 2 ∧
    ((getACAux timo p u (evs ++ NetEvent.response d st fu ct j t :: rest)
        s).1.rows.map Row.success).getLast? = some true ∧
    (getACAux timo p u (evs ++ NetEvent.response d st fu ct j t :: rest)
        s).1.call_id = s.call_id + 2 * (evs.length : Int) + 2 := by
  obtain ⟨s2, heq, hsucc, hcode, hlen, hid⟩ :=
    getACAux_all5xx timo p u evs (NetEvent.response d st fu ct j t :: rest)
      s h5
  have hstep := attemptAC_success timo p u s2 d st fu ct j t r size hdec
    (by omega)
  rw [heq]
  refine ⟨?_, ?_, ?_, ?_⟩
  · simp [getACAux, hstep]
  · simp [getACAux, hstep]
    omega
  · simp only [getACAux, hstep]
    rw [show s2.rows ++ _ = (s2.rows ++
      [{ call_id := s2.call_id, project := p, t := s2.clock,
         delta_t := d, url := u, redirect_url := fu,
         response_size := size, response_code := some st,
         success := true, error := "" }]) ++
      [{ call_id := s2.call_id + 1, project := p, t := s2.clock,
         delta_t := d, url := u, redirect_url := "",
         response_size := 0, response_code := none, success := true,
         error := "" }] from by simp]
    rw [List.map_append]
    simp
  · simp [getACAux, hstep]
    omega

/-- Witness for C1 with one 5xx attempt followed by a 200 attempt. -/
theorem claimC1_witness :
    (getACAux 5 "p" "u"
        ([NetEvent.response 0 500 "u" (some "application/json")
            (PyRes.ok "[2]") (PyRes.ok "y")] ++
          NetEvent.response 0 200 "u" (some "application/json")
            (PyRes.ok "[1]") (PyRes.ok "z") :: []) ⟨0, [], 0, []⟩).2 =
      some (Payload.jsonData "[1]") ∧
    (getACAux 5 "p" "u"
        ([NetEvent.response 0 500 "u" (some "application/json")
            (PyRes.ok "[2]") (PyRes.ok "y")] ++
          NetEvent.response 0 200 "u" (some "application/json")
            (PyRes.ok "[1]") (PyRes.ok "z") :: []) ⟨0, [], 0, []⟩).1.rows.length
      = 3 ∧
    (getACAux 5 "p" "u"
        ([NetEvent.response 0 500 "u" (some "application/json")
            (PyRes.ok "[2]") (PyRes.ok "y")] ++
          NetEvent.response 0 200 "u" (some "application/json")
            (PyRes.ok "[1]") (PyRes.ok "z") :: []) ⟨0, [], 0, []⟩).1.call_id
      = 4 := by
  have h5 : ∀ ev ∈ [NetEvent.response 0 500 "u" (some "application/json")
      (PyRes.ok "[2]") (PyRes.ok "y")], retryable5xxOk ev := by
    intro ev hev
    simp at hev
    subst hev
    exact ⟨by decide, Payload.jsonData "[2]", 3, by decide⟩
  have h := claimC1_amended 5 "p" "u"
    [NetEvent.response 0 500 "u" (some "application/json")
      (PyRes.ok "[2]") (PyRes.ok "y")]
    0 200 "u" (some "application/json") (PyRes.ok "[1]") (PyRes.ok "z")
    (Payload.jsonData "[1]") 3 [] ⟨0, [], 0, []⟩ h5 (by decide) (by decide)
    (by decide)
  exact ⟨h.1, h.2.1, by simpa using h.2.2.2⟩

/-- Counterexample to C1 as stated: with `k = 1` (one 5xx attempt, then a
2xx attempt) the log gains three rows, not the claimed `k + 1 = 2`. -/
theorem claimC1_counterexample :
    (getACAux 5 "p" "u"
        [NetEvent.response 0 500 "u" (some "application/json")
           (PyRes.ok "[2]") (PyRes.ok "y"),
         NetEvent.response 0 200 "u" (some "application/json")
           (PyRes.ok "[1]") (PyRes.ok "z")] ⟨0, [], 0, []⟩).1.rows.length = 3 ∧
    (3 : Nat) ≠ 2 ∧
    (getACAux 5 "p" "u"
        [NetEvent.response 0 500 "u" (some "application/json")
           (PyRes.ok "[2]") (PyRes.ok "y"),
         NetEvent.response 0 200 "u" (some "application/json")
           (PyRes.ok "[1]") (PyRes.ok "z")] ⟨0, [], 0, []⟩).2 =
      some (Payload.jsonData "[1]") := by
  exact ⟨by decide, by decide, by decide⟩

/-- C4 (amended): if every attempt of one `AsyncConnector.get` call
observes a 5xx response (with a successful decode), the call returns no
payload — the loop falls through and Python returns `None`, no exception
— and the log gains exactly one row per attempt; but each of those rows
carries `success = True` and an empty response code (they are written by
the `finally` block), not the claimed `success=false`.  `Connector.get`
instead raises `NameError` on its first 5xx attempt (see C3). -/
theorem claimC4_amended (timo : Nat) (p u : String) (evs : List NetEvent)
    (s : ConnState) (h5 : ∀ ev ∈ evs, retryable5xxOk ev) :
    (getACAux timo p u evs s).2 = none ∧
    (getACAux timo p u evs s).1.rows.length = s.rows.length + evs.length ∧
    (getACAux timo p u evs s).1.rows.map Row.success =
      s.rows.map Row.success ++ List.replicate evs.length true ∧
    (getACAux timo p u evs s).1.rows.map Row.response_code =
      s.rows.map Row.response_code ++ List.replicate evs.length none := by
  obtain ⟨s2, heq, hsucc, hcode, hlen, hid⟩ :=
    getACAux_all5xx timo p u evs [] s h5
  rw [List.append_nil] at heq
  rw [heq]
  exact ⟨rfl, hlen, hsucc, hcode⟩

/-- Witness for C4 with two 5xx attempts and `n_tries = 2`. -/
theorem claimC4_witness :
    (getACAux 5 "p" "u"
        [NetEvent.response 0 500 "u" (some "application/json")
           (PyRes.ok "[2]") (PyRes.ok "y"),
         NetEvent.response 1 503 "u" (some "application/json")
           (PyRes.ok "[3]") (PyRes.ok "y")] ⟨0, [], 0, []⟩).2 = none ∧
    (getACAux 5 "p" "u"
        [NetEvent.response 0 500 "u" (some "application/json")
           (PyRes.ok "[2]") (PyRes.ok "y"),
         NetEvent.response 1 503 "u" (some "application/json")
           (PyRes.ok "[3]") (PyRes.ok "y")] ⟨0, [], 0, []⟩).1.rows.length
      = 2 := by
  have h5 : ∀ ev ∈ [NetEvent.response 0 500 "u" (some "application/json")
        (PyRes.ok "[2]") (PyRes.ok "y"),
      NetEvent.response 1 503 "u" (some "application/json")
        (PyRes.ok "[3]") (PyRes.ok "y")], retryable5xxOk ev := by
    intro ev hev
    simp at hev
    rcases hev with rfl | rfl
    · exact ⟨by decide, Payload.jsonData "[2]", 3, by decide⟩
    · exact ⟨by decide, Payload.jsonData "[3]", 3, by decide⟩
  have h := claimC4_amended 5 "p" "u"
    [NetEvent.response 0 500 "u" (some "application/json")
       (PyRes.ok "[2]") (PyRes.ok "y"),
     NetEvent.response 1 503 "u" (some "application/json")
       (PyRes.ok "[3]") (PyRes.ok "y")] ⟨0, [], 0, []⟩ h5
  exact ⟨h.1, h.2.1⟩

/-- Counterexample to C4 as stated: after an all-5xx run of
`AsyncConnector.get`, the appended rows carry `success = True`, not the
claimed all-`success=false`. -/
theorem claimC4_counterexample :
    ((getACAux 5 "p" "u"
        [NetEvent.response 0 500 "u" (some "application/json")
           (PyRes.ok "[2]") (PyRes.ok "y"),
         NetEvent.response 1 503 "u" (some "application/json")
           (PyRes.ok "[3]") (PyRes.ok "y")] ⟨0, [], 0, []⟩).1.rows.map
      Row.success = [true, true]) ∧
    ([true, true] ≠ [false, false]) ∧
    (getACAux 5 "p" "u"
        [NetEvent.response 0 500 "u" (some "application/json")
           (PyRes.ok "[2]") (PyRes.ok "y"),
         NetEvent.response 1 503 "u" (some "application/json")
           (PyRes.ok "[3]") (PyRes.ok "y")] ⟨0, [], 0, []⟩).2 = none := by
  exact ⟨by decide, by decide, by decide⟩

/-- C3 (failing input for the code bug): `Connector.get` of
`async_connector.py` does not absorb per-attempt errors.  On a first
attempt that raises a connection error, the `except Exception` block logs
one failure row and then evaluates `await rate_limit(self.timeout * n ** 2)`
on line 165; the bare name `rate_limit` is a class attribute, not in
scope, so a `NameError` propagates to the caller instead of the loop
retrying.  (`AsyncConnector.get` does absorb every event: `attemptAC` is
total and never yields a raised outcome.) -/
theorem claimC3_theorem :
    getCAux "p" "http://x" [NetEvent.connErr 0] ⟨0, [], 0, []⟩ =
      ({ call_id := 1,
         rows :=
           [{ call_id := 0, project := "p", t := 0, delta_t := 0,
              url := "http://x", redirect_url := "", response_size := 0,
              response_code := none, success := false,
              error := tracebackConnError }],
         clock := 0, starts := [0] },
       COutcome.raised nameErrorRateLimit) := by
  decide

/-- C5 (amended): within one `AsyncConnector` log the call ids of the
appended rows are strictly increasing and stay below the counter; any
`get` call given at least one attempt appends at least one row; and
reopening a non-corrupted model log (every rendered row newline-free)
resumes numbering at the last row id plus one, so the strict increase
carries across process restarts.  A `Connector.get` call, however, can
terminate by raising `NameError` — an outcome that is neither a success
payload nor exhaustion (see `claimC5_counterexample`). -/
theorem claimC5_amended (timo : Nat) (p u : String) (evs : List NetEvent)
    (s : ConnState)
    (hdom : ∀ r ∈ s.rows, r.call_id < s.call_id)
    (hch : List.Chain' (· < ·) (s.rows.map Row.call_id)) :
    List.Chain' (· < ·)
      ((getACAux timo p u evs s).1.rows.map Row.call_id) ∧
    (∀ r ∈ (getACAux timo p u evs s).1.rows,
      r.call_id < (getACAux timo p u evs s).1.call_id) ∧
    (evs ≠ [] →
      s.rows.length < (getACAux timo p u evs s).1.rows.length) ∧
    (∀ (rows : List Row) (r2 : Row),
      (∀ x ∈ rows ++ [r2], '\n' ∉ (renderRow x).data) →
      startCallId (logContentsAC (rows ++ [r2])) = r2.call_id + 1) := by
  obtain ⟨c1, c2, _, c4⟩ := getACAux_ids_mono timo p u evs s hdom hch
  exact ⟨c1, c2, c4, fun rows r2 h => startCallId_resume rows r2 h⟩

/-- Witness for C5 on a concrete two-attempt run from a fresh state. -/
theorem claimC5_witness :
    List.Chain' (· < ·)
      ((getACAux 5 "p" "u" [NetEvent.connErr 0, NetEvent.timeoutErr 2]
          ⟨0, [], 0, []⟩).1.rows.map Row.call_id) ∧
    ([NetEvent.connErr 0, NetEvent.timeoutErr 2] ≠ ([] : List NetEvent) →
      (0 : Nat) <
        (getACAux 5 "p" "u" [NetEvent.connErr 0, NetEvent.timeoutErr 2]
          ⟨0, [], 0, []⟩).1.rows.length) := by
  have h := claimC5_amended 5 "p" "u"
    [NetEvent.connErr 0, NetEvent.timeoutErr 2] ⟨0, [], 0, []⟩
    (by simp) (by simp)
  exact ⟨h.1, h.2.2.1⟩

/-- Counterexample to C5 as stated: a `Connector.get` call whose first
attempt times out terminates by raising `NameError`, which is neither of
the two claimed terminal outcomes (success payload or exhaustion). -/
theorem claimC5_counterexample :
    (getCAux "p" "u" [NetEvent.timeoutErr 1] ⟨0, [], 0, []⟩).2 =
      COutcome.raised nameErrorRateLimit ∧
    (getCAux "p" "u" [NetEvent.timeoutErr 1] ⟨0, [], 0, []⟩).2 ≠
      COutcome.noResult := by
  exact ⟨by decide, by decide⟩

/-- C6: the constructor determines the starting call identifier from the
existing log file.  A missing file is created with the header line and
numbering starts at 0; an existing file with `overwrite` is truncated to
the header and numbering restarts at 0; without `overwrite` the file is
left untouched and numbering starts at 0 when at most one line is
present, resumes at `parsed + 1` when the first `;`-field of the last
line parses as an integer, and restarts at 0 (without raising) when the
parse fails.  In particular reopening a non-corrupted model log resumes
at the last appended row id plus one. -/
theorem claimC6_theorem (ow : Bool) (old : String) :
    (initContent false ow old = headerAC ++ "\n" ∧
      initCallId false ow old = 0) ∧
    (initContent true true old = headerAC ++ "\n" ∧
      initCallId true true old = 0) ∧
    (initContent true false old = old) ∧
    ((pyLines old).length ≤ 1 → initCallId true false old = 0) ∧
    (∀ n : Int, 1 < (pyLines old).length →
      pyParseInt (firstField ((pyLines old).getLastD "")) = some n →
      initCallId true false old = n + 1) ∧
    (1 < (pyLines old).length →
      pyParseInt (firstField ((pyLines old).getLastD "")) = none →
      initCallId true false old = 0) ∧
    (∀ (rows : List Row) (r : Row),
      (∀ x ∈ rows ++ [r], '\n' ∉ (renderRow x).data) →
      initCallId true false (logContentsAC (rows ++ [r])) = r.call_id + 1) := by
  refine ⟨⟨rfl, startCallId_header_only⟩, ⟨rfl, startCallId_header_only⟩,
    rfl, ?_, ?_, ?_, ?_⟩
  · intro hlen
    show startCallId old = 0
    simp only [startCallId]
    rw [if_pos hlen]
  · intro n hlen hparse
    show startCallId old = n + 1
    simp only [startCallId]
    rw [if_neg (by omega), hparse]
  · intro hlen hparse
    show startCallId old = 0
    simp only [startCallId]
    rw [if_neg (by omega), hparse]
  · intro rows r h
    exact startCallId_resume rows r h

/-- Witness for C6: a two-line log whose last line starts with `3`
resumes numbering at 4 when reopened without overwrite, and restarts at 0
when reopened with overwrite. -/
theorem claimC6_witness :
    initCallId true false "h\n3;x" = 4 ∧ initCallId true true "h\n3;x" = 0 := by
  have h := claimC6_theorem true "h\n3;x"
  refine ⟨?_, h.2.1.2⟩
  have h5 := h.2.2.2.2.1 3 (by decide) (by decide)
  simpa using h5

/-- C7: every retried attempt of `AsyncConnector.get` is followed by a
flat backoff of `timeout` seconds before the next attempt begins, so the
start times of consecutive attempts of one call are separated by at least
`timeout` seconds of wall-clock time (in particular at least 5 seconds
with `timeout = 5`).  For `Connector.get` the property holds vacuously:
a call never performs a second attempt (every failing path raises
`NameError`), so no two attempt start times exist to compare. -/
theorem claimC7_theorem (timo : Nat) (p u : String) (evs : List NetEvent)
    (s : ConnState)
    (h1 : ∀ x ∈ s.starts, x + timo ≤ s.clock)
    (h2 : List.Chain' (fun a b => a + timo ≤ b) s.starts) :
    List.Chain' (fun a b => a + timo ≤ b)
      ((getACAux timo p u evs s).1.starts) ∧
    ∀ (p2 u2 : String) (evs2 : List NetEvent) (s2 : ConnState),
      (getCAux p2 u2 evs2 s2).1.starts.length ≤ s2.starts.length + 1 :=
  ⟨(getACAux_starts_sep timo p u evs s h1 h2).1,
    fun p2 u2 evs2 s2 => getCAux_at_most_one_attempt p2 u2 evs2 s2⟩

/-- Witness for C7 on a three-attempt run with `timeout = 5`. -/
theorem claimC7_witness :
    List.Chain' (fun a b => a + 5 ≤ b)
      ((getACAux 5 "p" "u"
          [NetEvent.connErr 0, NetEvent.connErr 0,
           NetEvent.response 0 200 "u" (some "application/json")
             (PyRes.ok "[1]") (PyRes.ok "x")]
          ⟨0, [], 0, []⟩).1.starts) :=
  (claimC7_theorem 5 "p" "u"
    [NetEvent.connErr 0, NetEvent.connErr 0,
     NetEvent.response 0 200 "u" (some "application/json")
       (PyRes.ok "[1]") (PyRes.ok "x")]
    ⟨0, [], 0, []⟩ (by simp) (by simp)).1

/-- C8 (amended): in `AsyncConnector.get`, when the declared content type
contains the token `json` the payload is decoded as structured data and
the logged `response_size` is the length of its JSON serialization;
when it does not (for example `text/plain`), the payload is decoded as
plain text and `response_size` is the character length of that text (the
spurious `finally` row that follows carries size 0).  `Connector.get`
has no text path at all: it always calls `response.json()`, so a
non-JSON response is logged as a failure with `response_size = 0` (see
`claimC8_counterexample`). -/
theorem claimC8_amended (timo d : Nat) (st : Int) (p u fu : String)
    (s : ConnState) (hst : ¬ 500 ≤ st) :
    (∀ (c dump : String) (t2 : PyRes), strContains c "json" = true →
      (attemptAC timo p u s (NetEvent.response d st fu (some c)
          (PyRes.ok dump) t2)).2 = some (Payload.jsonData dump) ∧
      (attemptAC timo p u s (NetEvent.response d st fu (some c)
          (PyRes.ok dump) t2)).1.rows.map Row.response_size =
        s.rows.map Row.response_size ++ [dump.length, 0]) ∧
    (∀ (c txt : String) (j2 : PyRes), strContains c "json" = false →
      (attemptAC timo p u s (NetEvent.response d st fu (some c)
          j2 (PyRes.ok txt))).2 = some (Payload.textData txt) ∧
      (attemptAC timo p u s (NetEvent.response d st fu (some c)
          j2 (PyRes.ok txt))).1.rows.map Row.response_size =
        s.rows.map Row.response_size ++ [txt.length, 0]) := by
  constructor
  · intro c dump t2 hc
    have hdec : decodePy (some c) (PyRes.ok dump) t2 =
        PyDecode.ok (Payload.jsonData dump) dump.length := by
      simp [decodePy, hc]
    have h := attemptAC_success timo p u s d st fu (some c) (PyRes.ok dump)
      t2 (Payload.jsonData dump) dump.length hdec hst
    rw [h]
    exact ⟨rfl, by simp⟩
  · intro c txt j2 hc
    have hdec : decodePy (some c) j2 (PyRes.ok txt) =
        PyDecode.ok (Payload.textData txt) txt.length := by
      simp [decodePy, hc]
    have h := attemptAC_success timo p u s d st fu (some c) j2
      (PyRes.ok txt) (Payload.textData txt) txt.length hdec hst
    rw [h]
    exact ⟨rfl, by simp⟩

/-- Witness for C8: a `text/plain` response decoded by
`AsyncConnector.get` yields the text payload with its character length as
the logged size, and an `application/json` response yields the JSON
payload with its serialized length. -/
theorem claimC8_witness :
    ((attemptAC 5 "p" "u" ⟨0, [], 0, []⟩
        (NetEvent.response 0 200 "u" (some "text/plain")
          (PyRes.exn "boom") (PyRes.ok "hello"))).2 =
      some (Payload.textData "hello")) ∧
    ((attemptAC 5 "p" "u" ⟨0, [], 0, []⟩
        (NetEvent.response 0 200 "u" (some "text/plain")
          (PyRes.exn "boom") (PyRes.ok "hello"))).1.rows.map
        Row.response_size = [5, 0]) ∧
    ((attemptAC 5 "p" "u" ⟨0, [], 0, []⟩
        (NetEvent.response 0 200 "u" (some "application/json")
          (PyRes.ok "[1, 2]") (PyRes.exn "boom"))).1.rows.map
        Row.response_size = [6, 0]) := by
  have ht := (claimC8_amended 5 0 200 "p" "u" "u" ⟨0, [], 0, []⟩
    (by decide)).2 "text/plain" "hello" (PyRes.exn "boom") (by decide)
  have hj := (claimC8_amended 5 0 200 "p" "u" "u" ⟨0, [], 0, []⟩
    (by decide)).1 "application/json" "[1, 2]" (PyRes.exn "boom") (by decide)
  exact ⟨ht.1, by simpa using ht.2, by simpa using hj.2⟩

/-- Counterexample to C8 as stated: `Connector.get` never decodes a
non-JSON body as text — a `text/plain` response whose JSON decode raises
is logged as one failure row with `response_size = 0` (not the text
length 5) and the call raises `NameError`. -/
theorem claimC8_counterexample :
    ((getCAux "p" "u"
        [NetEvent.response 0 200 "u" (some "text/plain")
           (PyRes.exn "ContentTypeError") (PyRes.ok "hello")]
        ⟨0, [], 0, []⟩).1.rows.map Row.response_size = [0]) ∧
    ((getCAux "p" "u"
        [NetEvent.response 0 200 "u" (some "text/plain")
           (PyRes.exn "ContentTypeError") (PyRes.ok "hello")]
        ⟨0, [], 0, []⟩).1.rows.map Row.success = [false]) ∧
    ((0 : Nat) ≠ "hello".length) := by
  exact ⟨by decide, by decide, by decide⟩

/-- C9 (amended): a fresh `AsyncConnector` log consists of the header
line `call_id;project;t;delta_t;url;redirect_url;response_size;response_code;success;error`
followed by a newline; each append extends the file with a
newline-prefixed `;`-joined record and never rewrites earlier content;
because records are newline-prefixed (not newline-terminated), an empty
line separates the header from the first record and the file does not
end with a newline; each record splits at `;` into exactly the ten
fields in the fixed source order (when the free-text fields are
separator-free).  The `Connector` variant writes `id`, not `call_id`, as
the first header column (see `claimC9_counterexample`). -/
theorem claimC9_amended :
    (logContentsAC [] = headerAC ++ "\n") ∧
    (∀ (rows : List Row) (r : Row), logContentsAC (rows ++ [r]) =
      logContentsAC rows ++ ("\n" ++ renderRow r)) ∧
    (∀ rows : List Row, rows ≠ [] →
      (∀ x ∈ rows, '\n' ∉ (renderRow x).data) →
      pyLines (logContentsAC rows) = headerAC :: "" :: rows.map renderRow) ∧
    (∀ r : Row, ';' ∉ r.project.data → ';' ∉ r.url.data →
      ';' ∉ r.redirect_url.data → ';' ∉ r.error.data →
      (splitCh ';' (renderRow r).data).map (fun l => String.mk l) =
        [pyStrInt r.call_id, r.project, pyStrNat r.t, pyStrNat r.delta_t,
         r.url, r.redirect_url, pyStrNat r.response_size,
         renderCode r.response_code, renderBool r.success, r.error]) ∧
    (logContentsC [] = headerC ++ "\n") := by
  refine ⟨?_, ?_, ?_, ?_, ?_⟩
  · refine String.ext ?_
    simp [logContentsAC, String.data_append,
      show (rowsBlock []).data = [] from rfl]
  · intro rows r
    refine String.ext ?_
    simp [logContentsAC, rowsBlock_append, String.data_append,
      List.append_assoc]
  · intro rows hne h
    exact pyLines_log headerAC rows hne (by decide) h
  · intro r hp hu hru he
    exact splitCh_renderRow r hp hu hru he
  · refine String.ext ?_
    simp [logContentsC, String.data_append,
      show (rowsBlock []).data = [] from rfl]

/-- Witness for C9 on a one-row log. -/
theorem claimC9_witness :
    pyLines (logContentsAC
        [{ call_id := 0, project := "p", t := 0, delta_t := 0, url := "u",
           redirect_url := "", response_size := 0, response_code := none,
           success := false, error := "" }]) =
      [headerAC, "",
       renderRow
         { call_id := 0, project := "p", t := 0, delta_t := 0,
           url := "u", redirect_url := "", response_size := 0,
           response_code := none, success := false, error := "" }] := by
  exact claimC9_amended.2.2.1
    [{ call_id := 0, project := "p", t := 0, delta_t := 0, url := "u",
       redirect_url := "", response_size := 0, response_code := none,
       success := false, error := "" }]
    (by simp) (by decide)

/-- Counterexample to C9 as stated: the header written by
`Connector.__init__` names its first column `id`, not `call_id`, and the
line after the header of a model log with one appended row is empty, not
a `;`-delimited attempt line. -/
theorem claimC9_counterexample :
    (headerC ≠
      "call_id;project;t;delta_t;url;redirect_url;response_size;response_code;success;error") ∧
    ((pyLines (logContentsAC
        [{ call_id := 0, project := "p", t := 0, delta_t := 0, url := "u",
           redirect_url := "", response_size := 0, response_code := none,
           success := false, error := "" }])).getD 1 "missing" = "") := by
  exact ⟨by decide, by decide⟩
